import Mathlib

/-!
Verification of the SASLprep pipeline (`packages/saslprep/src/index.ts`).

A JavaScript string is modelled as its list of UTF-16 code units
(`List Nat`, each unit below `0x10000` for well-formed strings).  The
classification tables (`createMemoryCodePoints`) are external data consumed
through six membership predicates, modelled as `Nat → Bool` fields.  The
NFKC normalization primitive (`String.prototype.normalize('NFKC')`) is an
external capability, modelled as a parameter `norm : List Nat → List Nat`
acting on UTF-16 code-unit lists.
-/

set_option maxRecDepth 100000

/-- The six membership predicates destructured from
`ReturnType<typeof createMemoryCodePoints>` in the source.  `get` on a
sparse bitfield is modelled as a boolean membership function. -/
structure MemoryCodePoints where
  unassigned_code_points : Nat → Bool
  commonly_mapped_to_nothing : Nat → Bool
  non_ASCII_space_characters : Nat → Bool
  prohibited_characters : Nat → Bool
  bidirectional_r_al : Nat → Bool
  bidirectional_l : Nat → Bool

/-- The options object `opts: { allowUnassigned?: boolean }`.  An absent
field is `none`. -/
structure Opts where
  allowUnassigned : Option Bool

/-- The distinct failure kinds of the pipeline (spec §7), plus
`RuntimeTypeError` for the uncaught `TypeError` raised when
`getCodePoint(first(normalized_input))` is evaluated on an empty
normalized string (`first("")` is `undefined`, and
`undefined.codePointAt(0)` throws).  `InvalidInputType` is unreachable in
this embedding because the input is a string by type. -/
inductive StringPrepError where
  | InvalidInputType
  | ProhibitedCharacter
  | UnassignedCodePoint
  | BidiMixedDirection
  | BidiEdgePlacement
  | RuntimeTypeError
deriving DecidableEq, Repr

deriving instance DecidableEq for Except

/-- `toCodePoints` from the source: scan the UTF-16 code units left to
right; a high surrogate (`0xD800`–`0xDBFF`) followed by an existing low
surrogate (`0xDC00`–`0xDFFF`) is combined into
`(before - 0xd800) * 0x400 + next - 0xdc00 + 0x10000` and the scan
advances two positions; every other unit is emitted unchanged.
The source's index loop (`i += 1` inside the body) is rendered as
structural recursion: `size > i + 1` is "the tail is non-empty". -/
def toCodePoints : List Nat → List Nat
  | [] => []
  | [before] => [before]
  | before :: next :: rest2 =>
    if 0xd800 ≤ before ∧ before ≤ 0xdbff then
      if 0xdc00 ≤ next ∧ next ≤ 0xdfff then
        ((before - 0xd800) * 0x400 + next - 0xdc00 + 0x10000) :: toCodePoints rest2
      else
        before :: toCodePoints (next :: rest2)
    else
      before :: toCodePoints (next :: rest2)

/-- The decoder contract as the spec states it (§4.1): when the current
unit is a high surrogate (0xD800–0xDBFF), a next unit exists, and that
next unit is a low surrogate (0xDC00–0xDFFF), emit the single scalar
`(high − 0xD800) × 0x400 + (low − 0xDC00) + 0x10000` and advance two
positions; in every other case emit the unit's value unchanged and
advance one position; the empty string decodes to the empty sequence. -/
def decodeSpec : List Nat → List Nat
  | [] => []
  | [u] => [u]
  | high :: low :: rest =>
    if (0xd800 ≤ high ∧ high ≤ 0xdbff) ∧ (0xdc00 ≤ low ∧ low ≤ 0xdfff) then
      ((high - 0xd800) * 0x400 + (low - 0xdc00) + 0x10000) :: decodeSpec rest
    else
      high :: decodeSpec (low :: rest)

/-- `String.fromCodePoint`: each code point at most `0xFFFF` becomes one
UTF-16 code unit; larger ones become a surrogate pair. -/
def fromCodePoint : List Nat → List Nat
  | [] => []
  | c :: rest =>
    if c ≤ 0xffff then
      c :: fromCodePoint rest
    else
      ((c - 0x10000) / 0x400 + 0xd800) :: ((c - 0x10000) % 0x400 + 0xdc00) :: fromCodePoint rest

/-- The `mapped_input` intermediate of the source: decode, replace every
member of `non_ASCII_space_characters` by `0x20`, then drop every member
of `commonly_mapped_to_nothing` (the filter sees the substituted values). -/
def mappedInput (t : MemoryCodePoints) (input : List Nat) : List Nat :=
  ((toCodePoints input).map
      (fun character => if t.non_ASCII_space_characters character then 0x20 else character)).filter
    (fun character => ! t.commonly_mapped_to_nothing character)

/-- The `normalized_input` intermediate: the mapped sequence reassembled
into a string and passed to the normalization capability. -/
def normalizedInput (norm : List Nat → List Nat) (t : MemoryCodePoints)
    (input : List Nat) : List Nat :=
  norm (fromCodePoint (mappedInput t input))

/-- The `normalized_map` intermediate: the re-decoded normalized string,
used by all subsequent checks. -/
def normalizedMap (norm : List Nat → List Nat) (t : MemoryCodePoints)
    (input : List Nat) : List Nat :=
  toCodePoints (normalizedInput norm t input)

/-- The `saslprep` pipeline.  The checks appear in source order: empty
input short-circuit, prohibit check, unassigned check (guarded by
`opts.allowUnassigned !== true`), mixed-bidi check, then the bidi
first/last check.  The source computes
`getCodePoint(first(normalized_input))`: `first` takes the one-code-unit
string `normalized_input[0]`, and `codePointAt(0)` of a one-unit string
is that unit's value (a lone surrogate half yields its own value), so the
first/last tests read the first and last UTF-16 code units of the
normalized string (`headD`/`getLastD` below, guarded non-empty).  On an
empty normalized string this access throws; see `StringPrepError.RuntimeTypeError`. -/
def saslprep (norm : List Nat → List Nat) (t : MemoryCodePoints)
    (input : List Nat) (opts : Opts) : Except StringPrepError (List Nat) :=
  if input.length = 0 then .ok []
  else if (normalizedMap norm t input).any t.prohibited_characters then
    .error .ProhibitedCharacter
  else if opts.allowUnassigned ≠ some true ∧
      (normalizedMap norm t input).any t.unassigned_code_points then
    .error .UnassignedCodePoint
  else if (normalizedMap norm t input).any t.bidirectional_r_al ∧
      (normalizedMap norm t input).any t.bidirectional_l then
    .error .BidiMixedDirection
  else if normalizedInput norm t input = [] then
    .error .RuntimeTypeError
  else if (normalizedMap norm t input).any t.bidirectional_r_al ∧
      ¬(t.bidirectional_r_al ((normalizedInput norm t input).headD 0) ∧
        t.bidirectional_r_al ((normalizedInput norm t input).getLastD 0)) then
    .error .BidiEdgePlacement
  else
    .ok (normalizedInput norm t input)

/-- Tables whose only non-empty class is bidi-R-AL = {U+10800 CYPRIOT
SYLLABLE A}.  U+10800 has no NFKC decomposition, so the normalization
capability acts as the identity on the strings involved. -/
def tablesRAL10800 : MemoryCodePoints where
  unassigned_code_points := fun _ => false
  commonly_mapped_to_nothing := fun _ => false
  non_ASCII_space_characters := fun _ => false
  prohibited_characters := fun _ => false
  bidirectional_r_al := fun character => character == 0x10800
  bidirectional_l := fun _ => false

/-- Tables whose only non-empty class is commonly-mapped-to-nothing =
{U+0041 LATIN CAPITAL LETTER A}. -/
def tablesNothingA : MemoryCodePoints where
  unassigned_code_points := fun _ => false
  commonly_mapped_to_nothing := fun character => character == 0x41
  non_ASCII_space_characters := fun _ => false
  prohibited_characters := fun _ => false
  bidirectional_r_al := fun _ => false
  bidirectional_l := fun _ => false

/-- The NFKC capability restricted to the characters that occur in the
concrete runs below: NFKC maps U+FF21 FULLWIDTH LATIN CAPITAL LETTER A to
U+0041 and is the identity on U+0041 and on the empty string. -/
def normC (s : List Nat) : List Nat :=
  s.map (fun character => if character == 0xff21 then 0x41 else character)

/-- Tables whose only non-empty class is non-ASCII-space =
{U+00A0 NO-BREAK SPACE, U+0020}. -/
def tablesSpaceA0 : MemoryCodePoints where
  unassigned_code_points := fun _ => false
  commonly_mapped_to_nothing := fun _ => false
  non_ASCII_space_characters := fun character => character == 0xa0 || character == 0x20
  prohibited_characters := fun _ => false
  bidirectional_r_al := fun _ => false
  bidirectional_l := fun _ => false

/-- Tables whose only non-empty class is prohibited = {U+007F DELETE}. -/
def tablesProhibited7F : MemoryCodePoints where
  unassigned_code_points := fun _ => false
  commonly_mapped_to_nothing := fun _ => false
  non_ASCII_space_characters := fun _ => false
  prohibited_characters := fun character => character == 0x7f
  bidirectional_r_al := fun _ => false
  bidirectional_l := fun _ => false

/-- Tables whose only non-empty class is unassigned = {U+0378}. -/
def tablesUnassigned378 : MemoryCodePoints where
  unassigned_code_points := fun character => character == 0x378
  commonly_mapped_to_nothing := fun _ => false
  non_ASCII_space_characters := fun _ => false
  prohibited_characters := fun _ => false
  bidirectional_r_al := fun _ => false
  bidirectional_l := fun _ => false

/-- Tables with bidi-R-AL = {U+05D0 HEBREW LETTER ALEF} and bidi-L =
{U+0041 LATIN CAPITAL LETTER A}. -/
def tablesBidiMix : MemoryCodePoints where
  unassigned_code_points := fun _ => false
  commonly_mapped_to_nothing := fun _ => false
  non_ASCII_space_characters := fun _ => false
  prohibited_characters := fun _ => false
  bidirectional_r_al := fun character => character == 0x5d0
  bidirectional_l := fun character => character == 0x41

/-- C9: for every normalization capability, every tables value and every
options value, `saslprep` applied to the empty string returns the empty
string; quantifying over arbitrary `norm` and `t` (including ones that
would misbehave on the empty string) shows that no later step of the
pipeline is consulted. -/
theorem saslprep_empty_input (norm : List Nat → List Nat) (t : MemoryCodePoints)
    (opts : Opts) : saslprep norm t ([] : List Nat) opts = .ok [] := rfl

/-- C4: the source decoder `toCodePoints` satisfies the spec's contract
`decodeSpec` on every UTF-16 code-unit sequence: a high surrogate followed
by a low surrogate yields `(high − 0xD800) × 0x400 + (low − 0xDC00) +
0x10000` and consumes two units, every other unit (including lone
surrogates) is emitted unchanged, the empty string decodes to the empty
sequence, and decoding is total. -/
theorem toCodePoints_eq_decodeSpec : ∀ s : List Nat, toCodePoints s = decodeSpec s
  | [] => rfl
  | [_] => rfl
  | u :: v :: rest => by
    simp only [toCodePoints, decodeSpec]
    by_cases h1 : 0xd800 ≤ u ∧ u ≤ 0xdbff
    · by_cases h2 : 0xdc00 ≤ v ∧ v ≤ 0xdfff
      · rw [if_pos h1, if_pos h2, if_pos ⟨h1, h2⟩, toCodePoints_eq_decodeSpec rest]
        have hform : (u - 0xd800) * 0x400 + v - 0xdc00 + 0x10000 =
            (u - 0xd800) * 0x400 + (v - 0xdc00) + 0x10000 := by omega
        rw [hform]
      · rw [if_pos h1, if_neg h2, if_neg (fun hc => h2 hc.2),
          toCodePoints_eq_decodeSpec (v :: rest)]
    · rw [if_neg h1, if_neg (fun hc => h1 hc.1), toCodePoints_eq_decodeSpec (v :: rest)]

/-- C2: a non-empty input whose mapped, reassembled and normalized string
is empty drives the pipeline past the (vacuously passing) prohibit,
unassigned and mixed-bidi checks into the first/last access on the empty
normalized string, which aborts with a runtime `TypeError`
(`undefined.codePointAt`), modelled as `StringPrepError.RuntimeTypeError` —
not a result and not one of the enumerated stringprep failures. -/
theorem saslprep_empty_normalized_type_error (norm : List Nat → List Nat)
    (t : MemoryCodePoints) (input : List Nat) (opts : Opts)
    (hne : input ≠ []) (hz : normalizedInput norm t input = []) :
    saslprep norm t input opts = .error .RuntimeTypeError := by
  have hm : normalizedMap norm t input = [] := by
    rw [normalizedMap, hz]; rfl
  unfold saslprep
  rw [if_neg (by simpa using hne), hm, hz]
  simp

/-- Witness for C2, at the input suggested by the claim: with
commonly-mapped-to-nothing = {U+0041} every code point of "A" is mapped to
nothing, the normalized string is empty, and the call aborts with the
runtime type error. -/
theorem saslprep_empty_normalized_type_error_witness :
    ([0x41] : List Nat) ≠ [] ∧
    normalizedInput (fun s => s) tablesNothingA [0x41] = [] ∧
    saslprep (fun s => s) tablesNothingA [0x41] ⟨none⟩ = .error .RuntimeTypeError :=
  ⟨by decide, by decide,
    saslprep_empty_normalized_type_error (fun s => s) tablesNothingA [0x41] ⟨none⟩
      (by decide) (by decide)⟩

/-- C1: the source computes the bidi first/last check on the first and
last UTF-16 code units of the normalized string, not on the first and
last entries of the re-decoded normalized sequence.  With bidi-R-AL =
{U+10800} and input "𐠀" (the surrogate pair for U+10800, NFKC
modelled by the identity, faithful since U+10800 has no decomposition),
the decoded normalized sequence is [U+10800] whose first and last entries
are both in bidi-R-AL — by the claim the call must succeed — yet the code
inspects the code units 0xD802 and 0xDC00, finds them outside the table,
and fails with `BidiEdgePlacement`. -/
theorem saslprep_bidi_edge_checks_code_units :
    saslprep (fun s => s) tablesRAL10800 [0xd802, 0xdc00] ⟨none⟩ =
      .error .BidiEdgePlacement ∧
    normalizedMap (fun s => s) tablesRAL10800 [0xd802, 0xdc00] = [0x10800] ∧
    tablesRAL10800.bidirectional_r_al
      ((normalizedMap (fun s => s) tablesRAL10800 [0xd802, 0xdc00]).headD 0) = true ∧
    tablesRAL10800.bidirectional_r_al
      ((normalizedMap (fun s => s) tablesRAL10800 [0xd802, 0xdc00]).getLastD 0) = true := by
  refine ⟨?_, by decide, by decide, by decide⟩
  decide

/-- C5: in the mapping step the space substitution is applied to the
original decoded code points and the map-to-nothing filter afterwards, so
the filter tests the values that result from the substitution; the
`mapped_input` intermediate therefore equals filtering the decoded
sequence by "not mapped-to-nothing after substitution" and then
substituting, and every member of the non-ASCII-space table occurring in
the mapped intermediate is exactly U+0020. -/
theorem mappedInput_map_then_filter (t : MemoryCodePoints) (input : List Nat) :
    mappedInput t input =
      ((toCodePoints input).filter
          (fun character => ! t.commonly_mapped_to_nothing
            (if t.non_ASCII_space_characters character then 0x20 else character))).map
        (fun character => if t.non_ASCII_space_characters character then 0x20 else character) ∧
    ∀ c ∈ mappedInput t input, t.non_ASCII_space_characters c = true → c = 0x20 := by
  constructor
  · rw [mappedInput]
    generalize toCodePoints input = l
    induction l with
    | nil => rfl
    | cons a l ih =>
      by_cases h : t.commonly_mapped_to_nothing
          (if t.non_ASCII_space_characters a then 0x20 else a) = true
      · simp [List.filter_cons, h, ih]
      · simp [List.filter_cons, h, ih]
  · intro c hc hspace
    rw [mappedInput] at hc
    obtain ⟨hc', -⟩ := List.mem_filter.1 hc
    obtain ⟨a, ha, rfl⟩ := List.mem_map.1 hc'
    by_cases h : t.non_ASCII_space_characters a = true
    · rw [if_pos h]
    · rw [if_neg h] at hspace
      exact absurd hspace h

/-- Witness for C5: with non-ASCII-space ⊇ {U+00A0}, the input " "
is decoded, substituted to U+0020 before filtering, and U+0020 is the
member of the space table occurring in the mapped intermediate. -/
theorem mappedInput_map_then_filter_witness :
    mappedInput tablesSpaceA0 [0xa0] =
      ((toCodePoints [0xa0]).filter
          (fun character => ! tablesSpaceA0.commonly_mapped_to_nothing
            (if tablesSpaceA0.non_ASCII_space_characters character then 0x20
              else character))).map
        (fun character => if tablesSpaceA0.non_ASCII_space_characters character then 0x20
          else character) ∧
    (0x20 : Nat) = 0x20 :=
  ⟨(mappedInput_map_then_filter tablesSpaceA0 [0xa0]).1,
   (mappedInput_map_then_filter tablesSpaceA0 [0xa0]).2 0x20 (by decide) (by decide)⟩

/-- C6: for every non-empty input, if any code point of the re-decoded
normalized sequence is in the prohibited table the call fails with
`ProhibitedCharacter` — regardless of the unassigned and bidirectional
state, so this failure takes precedence — and if no code point of the
normalized sequence is prohibited this error is never raised. -/
theorem saslprep_prohibit_check (norm : List Nat → List Nat) (t : MemoryCodePoints)
    (input : List Nat) (opts : Opts) :
    (input ≠ [] → (normalizedMap norm t input).any t.prohibited_characters = true →
      saslprep norm t input opts = .error .ProhibitedCharacter) ∧
    ((normalizedMap norm t input).any t.prohibited_characters = false →
      saslprep norm t input opts ≠ .error .ProhibitedCharacter) := by
  constructor
  · intro hne hp
    unfold saslprep
    rw [if_neg (by simpa using hne), if_pos hp]
  · intro hp
    unfold saslprep
    split_ifs <;> simp_all

/-- Witness for C6: with prohibited = {U+007F}, the input "\u007F" fails
with `ProhibitedCharacter` while the input "a" does not. -/
theorem saslprep_prohibit_check_witness :
    saslprep (fun s => s) tablesProhibited7F [0x7f] ⟨none⟩ =
      .error .ProhibitedCharacter ∧
    saslprep (fun s => s) tablesProhibited7F [0x61] ⟨none⟩ ≠
      .error .ProhibitedCharacter :=
  ⟨(saslprep_prohibit_check (fun s => s) tablesProhibited7F [0x7f] ⟨none⟩).1
      (by decide) (by decide),
   (saslprep_prohibit_check (fun s => s) tablesProhibited7F [0x61] ⟨none⟩).2
      (by decide)⟩

/-- C8: for every non-empty input passing the prohibit check and the
unassigned check (either suppressed by `allowUnassigned = true` or with
no unassigned code point present), if the normalized sequence contains a
bidi-R-AL member and a bidi-L member the call fails with
`BidiMixedDirection`. -/
theorem saslprep_bidi_mixed (norm : List Nat → List Nat) (t : MemoryCodePoints)
    (input : List Nat) (opts : Opts)
    (hne : input ≠ [])
    (hp : (normalizedMap norm t input).any t.prohibited_characters = false)
    (hu : opts.allowUnassigned = some true ∨
      (normalizedMap norm t input).any t.unassigned_code_points = false)
    (hral : (normalizedMap norm t input).any t.bidirectional_r_al = true)
    (hl : (normalizedMap norm t input).any t.bidirectional_l = true) :
    saslprep norm t input opts = .error .BidiMixedDirection := by
  unfold saslprep
  rw [if_neg (by simpa using hne), if_neg (by simp [hp]),
    if_neg (fun hcon => hu.elim (fun h => hcon.1 h) (fun h => by simp [h] at hcon)),
    if_pos ⟨hral, hl⟩]

/-- Witness for C8: with bidi-R-AL = {U+05D0} and bidi-L = {U+0041}, the
input "Aא" fails with `BidiMixedDirection`. -/
theorem saslprep_bidi_mixed_witness :
    saslprep (fun s => s) tablesBidiMix [0x41, 0x5d0] ⟨none⟩ =
      .error .BidiMixedDirection :=
  saslprep_bidi_mixed (fun s => s) tablesBidiMix [0x41, 0x5d0] ⟨none⟩
    (by decide) (by decide) (Or.inr (by decide)) (by decide) (by decide)

/-- Shared lemma: when the empty-input short-circuit does not apply and
every check passes, the pipeline returns the normalized string. -/
theorem saslprep_eq_ok (norm : List Nat → List Nat) (t : MemoryCodePoints)
    (input : List Nat) (opts : Opts)
    (hne : input ≠ [])
    (hp : (normalizedMap norm t input).any t.prohibited_characters = false)
    (hu : opts.allowUnassigned = some true ∨
      (normalizedMap norm t input).any t.unassigned_code_points = false)
    (hm : ¬((normalizedMap norm t input).any t.bidirectional_r_al = true ∧
      (normalizedMap norm t input).any t.bidirectional_l = true))
    (hz : normalizedInput norm t input ≠ [])
    (he : (normalizedMap norm t input).any t.bidirectional_r_al = true →
      t.bidirectional_r_al ((normalizedInput norm t input).headD 0) = true ∧
      t.bidirectional_r_al ((normalizedInput norm t input).getLastD 0) = true) :
    saslprep norm t input opts = .ok (normalizedInput norm t input) := by
  unfold saslprep
  rw [if_neg (by simpa using hne), if_neg (by simp [hp]),
    if_neg (fun hcon => hu.elim (fun h => hcon.1 h) (fun h => by simp [h] at hcon)),
    if_neg hm, if_neg hz, if_neg (fun hcon => hcon.2 (he hcon.1))]

/-- Shared lemma: inversion of a successful run — the result is the
normalized string and every check passed. -/
theorem saslprep_ok_elim (norm : List Nat → List Nat) (t : MemoryCodePoints)
    (input : List Nat) (opts : Opts) (y : List Nat)
    (hne : input ≠ [])
    (h : saslprep norm t input opts = .ok y) :
    y = normalizedInput norm t input ∧
    (normalizedMap norm t input).any t.prohibited_characters = false ∧
    (opts.allowUnassigned = some true ∨
      (normalizedMap norm t input).any t.unassigned_code_points = false) ∧
    ¬((normalizedMap norm t input).any t.bidirectional_r_al = true ∧
      (normalizedMap norm t input).any t.bidirectional_l = true) ∧
    normalizedInput norm t input ≠ [] ∧
    ((normalizedMap norm t input).any t.bidirectional_r_al = true →
      t.bidirectional_r_al ((normalizedInput norm t input).headD 0) = true ∧
      t.bidirectional_r_al ((normalizedInput norm t input).getLastD 0) = true) := by
  unfold saslprep at h
  rw [if_neg (by simpa using hne)] at h
  by_cases h1 : (normalizedMap norm t input).any t.prohibited_characters = true
  · rw [if_pos h1] at h; simp at h
  rw [if_neg h1] at h
  by_cases h2 : opts.allowUnassigned ≠ some true ∧
      (normalizedMap norm t input).any t.unassigned_code_points = true
  · rw [if_pos h2] at h; simp at h
  rw [if_neg h2] at h
  by_cases h3 : (normalizedMap norm t input).any t.bidirectional_r_al = true ∧
      (normalizedMap norm t input).any t.bidirectional_l = true
  · rw [if_pos h3] at h; simp at h
  rw [if_neg h3] at h
  by_cases h4 : normalizedInput norm t input = []
  · rw [if_pos h4] at h; simp at h
  rw [if_neg h4] at h
  by_cases h5 : (normalizedMap norm t input).any t.bidirectional_r_al = true ∧
      ¬(t.bidirectional_r_al ((normalizedInput norm t input).headD 0) = true ∧
        t.bidirectional_r_al ((normalizedInput norm t input).getLastD 0) = true)
  · rw [if_pos h5] at h; simp at h
  rw [if_neg h5] at h
  refine ⟨?_, ?_, ?_, h3, h4, ?_⟩
  · injection h with h'
    exact h'.symm
  · simpa using h1
  · by_cases ha : opts.allowUnassigned = some true
    · exact Or.inl ha
    · right
      by_contra hb
      exact h2 ⟨ha, by simpa using hb⟩
  · intro hral
    by_contra hc
    exact h5 ⟨hral, hc⟩

/-- C7: for every non-empty input passing the prohibit check, if
`allowUnassigned` is unset or false and the normalized sequence contains
an unassigned code point the call fails with `UnassignedCodePoint`; with
`allowUnassigned = true` that error is never raised, and an input whose
only violation is an unassigned code point succeeds. -/
theorem saslprep_unassigned_check (norm : List Nat → List Nat) (t : MemoryCodePoints)
    (input : List Nat) (opts : Opts) :
    (input ≠ [] → (normalizedMap norm t input).any t.prohibited_characters = false →
      opts.allowUnassigned ≠ some true →
      (normalizedMap norm t input).any t.unassigned_code_points = true →
      saslprep norm t input opts = .error .UnassignedCodePoint) ∧
    (opts.allowUnassigned = some true →
      saslprep norm t input opts ≠ .error .UnassignedCodePoint) ∧
    (opts.allowUnassigned = some true →
      input ≠ [] →
      (normalizedMap norm t input).any t.prohibited_characters = false →
      ¬((normalizedMap norm t input).any t.bidirectional_r_al = true ∧
        (normalizedMap norm t input).any t.bidirectional_l = true) →
      normalizedInput norm t input ≠ [] →
      ((normalizedMap norm t input).any t.bidirectional_r_al = true →
        t.bidirectional_r_al ((normalizedInput norm t input).headD 0) = true ∧
        t.bidirectional_r_al ((normalizedInput norm t input).getLastD 0) = true) →
      saslprep norm t input opts = .ok (normalizedInput norm t input)) := by
  refine ⟨?_, ?_, ?_⟩
  · intro hne hp ha hu
    unfold saslprep
    rw [if_neg (by simpa using hne), if_neg (by simp [hp]), if_pos ⟨ha, hu⟩]
  · intro ha
    unfold saslprep
    split_ifs <;> simp_all
  · intro ha hne hp hm hz he
    exact saslprep_eq_ok norm t input opts hne hp (Or.inl ha) hm hz he

/-- Witness for C7: with unassigned = {U+0378}, the input "͸" fails
with `UnassignedCodePoint` when `allowUnassigned` is unset, and succeeds
(the error is not raised) when `allowUnassigned = true`. -/
theorem saslprep_unassigned_check_witness :
    saslprep (fun s => s) tablesUnassigned378 [0x378] ⟨none⟩ =
      .error .UnassignedCodePoint ∧
    saslprep (fun s => s) tablesUnassigned378 [0x378] ⟨some true⟩ ≠
      .error .UnassignedCodePoint ∧
    saslprep (fun s => s) tablesUnassigned378 [0x378] ⟨some true⟩ =
      .ok (normalizedInput (fun s => s) tablesUnassigned378 [0x378]) :=
  ⟨(saslprep_unassigned_check (fun s => s) tablesUnassigned378 [0x378] ⟨none⟩).1
      (by decide) (by decide) (by decide) (by decide),
   (saslprep_unassigned_check (fun s => s) tablesUnassigned378 [0x378] ⟨some true⟩).2.1
      rfl,
   (saslprep_unassigned_check (fun s => s) tablesUnassigned378 [0x378] ⟨some true⟩).2.2
      rfl (by decide) (by decide) (by decide) (by decide) (by decide)⟩

/-- Shared lemma: re-encoding the decoded code points of a well-formed
UTF-16 code-unit sequence reproduces it exactly (surrogate pairs are
re-split into the same two units, everything else round-trips one to
one). -/
theorem fromCodePoint_toCodePoints : ∀ (s : List Nat), (∀ u ∈ s, u < 0x10000) →
    fromCodePoint (toCodePoints s) = s
  | [], _ => rfl
  | [u], h => by
    have hu : u < 0x10000 := h u (by simp)
    simp only [toCodePoints, fromCodePoint]
    rw [if_pos (by omega)]
  | u :: v :: rest, h => by
    have hu : u < 0x10000 := h u (by simp)
    have hv : v < 0x10000 := h v (by simp)
    have hrest : ∀ w ∈ rest, w < 0x10000 := fun w hw => h w (by simp [hw])
    have hvrest : ∀ w ∈ v :: rest, w < 0x10000 := fun w hw => h w (List.mem_cons_of_mem u hw)
    simp only [toCodePoints]
    by_cases h1 : 0xd800 ≤ u ∧ u ≤ 0xdbff
    · by_cases h2 : 0xdc00 ≤ v ∧ v ≤ 0xdfff
      · rw [if_pos h1, if_pos h2]
        simp only [fromCodePoint]
        rw [if_neg (by omega), fromCodePoint_toCodePoints rest hrest]
        simp only [List.cons.injEq]
        refine ⟨by omega, by omega, trivial⟩
      · rw [if_pos h1, if_neg h2]
        simp only [fromCodePoint]
        rw [if_pos (by omega), fromCodePoint_toCodePoints (v :: rest) hvrest]
    · rw [if_neg h1]
      simp only [fromCodePoint]
      rw [if_pos (by omega), fromCodePoint_toCodePoints (v :: rest) hvrest]

/-- Shared lemma: the space substitution is the identity on a sequence
whose space-table members are already U+0020. -/
theorem map_space_id (t : MemoryCodePoints) :
    ∀ (l : List Nat), (∀ c ∈ l, t.non_ASCII_space_characters c = true → c = 0x20) →
    l.map (fun character => if t.non_ASCII_space_characters character then 0x20
      else character) = l
  | [], _ => rfl
  | a :: l, h => by
    have ha : (if t.non_ASCII_space_characters a then 0x20 else a) = a := by
      by_cases hs : t.non_ASCII_space_characters a = true
      · rw [if_pos hs]
        exact (h a (by simp) hs).symm
      · rw [if_neg hs]
    simp only [List.map_cons, ha]
    rw [map_space_id t l (fun c hc hs => h c (by simp [hc]) hs)]

/-- Shared lemma: the map-to-nothing filter keeps a sequence none of
whose members is in the map-to-nothing table. -/
theorem filter_nothing_id (t : MemoryCodePoints) :
    ∀ (l : List Nat), (∀ c ∈ l, t.commonly_mapped_to_nothing c = false) →
    l.filter (fun character => ! t.commonly_mapped_to_nothing character) = l
  | [], _ => rfl
  | a :: l, h => by
    rw [List.filter_cons, if_pos (by simp [h a (by simp)])]
    rw [filter_nothing_id t l (fun c hc => h c (by simp [hc]))]

/-- C3 counterexample: idempotence fails as stated.  With
commonly-mapped-to-nothing = {U+0041} and NFKC acting on U+FF21
FULLWIDTH LATIN CAPITAL LETTER A (whose NFKC form is U+0041; `normC` is
NFKC restricted to the characters involved), `prepare` on "Ａ" succeeds
producing "A", but `prepare` on "A" maps every code point to nothing,
normalizes to the empty string, and aborts with the runtime type error —
it does not return "A". -/
theorem saslprep_idempotence_counterexample :
    saslprep normC tablesNothingA [0xff21] ⟨none⟩ = .ok [0x41] ∧
    saslprep normC tablesNothingA [0x41] ⟨none⟩ = .error .RuntimeTypeError ∧
    saslprep normC tablesNothingA [0x41] ⟨none⟩ ≠ .ok [0x41] :=
  ⟨by decide, by decide, by decide⟩

/-- C3 amended: if `prepare(tables, x)` succeeds producing `y`, the
normalization capability fixes `y` (as NFKC does on its own output), `y`
is well-formed UTF-16, and — the condition the counterexample forces —
no code point of the decoded `y` is in the commonly-mapped-to-nothing
table and every member of the non-ASCII-space table occurring in the
decoded `y` is already U+0020 (so normalization did not reintroduce
mapped-away characters), then `prepare(tables, y)` succeeds and returns
`y` itself. -/
theorem saslprep_idempotent_amended (norm : List Nat → List Nat) (t : MemoryCodePoints)
    (input y : List Nat) (opts : Opts)
    (hx : saslprep norm t input opts = .ok y)
    (hwf : ∀ u ∈ y, u < 0x10000)
    (hfix : norm y = y)
    (hnothing : ∀ c ∈ toCodePoints y, t.commonly_mapped_to_nothing c = false)
    (hspace : ∀ c ∈ toCodePoints y, t.non_ASCII_space_characters c = true → c = 0x20) :
    saslprep norm t y opts = .ok y := by
  by_cases hne : input = []
  · subst hne
    have h0 : saslprep norm t ([] : List Nat) opts = .ok [] := rfl
    rw [h0] at hx
    injection hx with h'
    rw [← h']
    rfl
  · obtain ⟨hy, hp, hu, hm, hz, he⟩ := saslprep_ok_elim norm t input opts y hne hx
    have hmap : mappedInput t y = toCodePoints y := by
      rw [mappedInput, map_space_id t (toCodePoints y) hspace,
        filter_nothing_id t (toCodePoints y) hnothing]
    have hni : normalizedInput norm t y = y := by
      rw [normalizedInput, hmap, fromCodePoint_toCodePoints y hwf, hfix]
    have hnm : normalizedMap norm t y = normalizedMap norm t input := by
      simp only [normalizedMap]
      rw [hni, ← hy]
    have hyne : y ≠ [] := by rw [hy]; exact hz
    have hres := saslprep_eq_ok norm t y opts hyne
      (by rw [hnm]; exact hp) (by rw [hnm]; exact hu) (by rw [hnm]; exact hm)
      (by rw [hni]; exact hyne)
      (by
        rw [hnm, hni]
        intro hral
        have hfl := he hral
        rw [← hy] at hfl
        exact hfl)
    rw [hni] at hres
    exact hres

/-- Witness for the amended C3: with non-ASCII-space ⊇ {U+00A0, U+0020},
`prepare` on " " succeeds producing " ", and re-preparing " " returns
" " itself. -/
theorem saslprep_idempotent_amended_witness :
    saslprep (fun s => s) tablesSpaceA0 [0x20] ⟨none⟩ = .ok [0x20] :=
  saslprep_idempotent_amended (fun s => s) tablesSpaceA0 [0xa0] [0x20] ⟨none⟩
    (by decide) (by decide) rfl (by decide) (by decide)

/-- C10 counterexample: the claim fails as stated.  With
commonly-mapped-to-nothing = {U+0041} and NFKC mapping U+FF21 to U+0041
(`normC`), the input "AＡ" contains the mapped-to-nothing code point
U+0041, `prepare` succeeds — yet the returned string is "A", which
contains that very code point, reintroduced by normalization after the
filter ran. -/
theorem saslprep_map_to_nothing_counterexample :
    tablesNothingA.commonly_mapped_to_nothing 0x41 = true ∧
    0x41 ∈ toCodePoints [0x41, 0xff21] ∧
    saslprep normC tablesNothingA [0x41, 0xff21] ⟨none⟩ = .ok [0x41] ∧
    0x41 ∈ toCodePoints [0x41] :=
  ⟨by decide, by decide, by decide, by decide⟩

/-- C10 amended: a code point of the commonly-mapped-to-nothing table
never occurs in the mapped intermediate; and if, in addition, the
normalization step does not reintroduce it into the decoded normalized
sequence, it is absent from the code points of a successful result.  The
counterexample shows the extra condition is necessary: NFKC can
reintroduce a mapped-away code point. -/
theorem saslprep_map_to_nothing_amended (norm : List Nat → List Nat)
    (t : MemoryCodePoints) (input y : List Nat) (opts : Opts) (c : Nat)
    (hc : t.commonly_mapped_to_nothing c = true) :
    c ∉ mappedInput t input ∧
    (saslprep norm t input opts = .ok y →
      c ∉ normalizedMap norm t input → c ∉ toCodePoints y) := by
  constructor
  · intro hmem
    have hpred := (List.mem_filter.1 hmem).2
    simp [hc] at hpred
  · intro hok hnm
    by_cases hne : input = []
    · subst hne
      have h0 : saslprep norm t ([] : List Nat) opts = .ok [] := rfl
      rw [h0] at hok
      injection hok with h'
      rw [← h']
      simp [toCodePoints]
    · obtain ⟨hy, -⟩ := saslprep_ok_elim norm t input opts y hne hok
      rw [hy]
      simpa [normalizedMap] using hnm

/-- Witness for the amended C10: with commonly-mapped-to-nothing =
{U+0041} and identity normalization, "aA" prepares to "a": U+0041 is
neither in the mapped intermediate nor in the decoded result. -/
theorem saslprep_map_to_nothing_amended_witness :
    (0x41 : Nat) ∉ mappedInput tablesNothingA [0x61, 0x41] ∧
    (0x41 : Nat) ∉ toCodePoints [0x61] := by
  have h := saslprep_map_to_nothing_amended (fun s => s) tablesNothingA [0x61, 0x41]
    [0x61] ⟨none⟩ 0x41 (by decide)
  exact ⟨h.1, h.2 (by decide) (by decide)⟩
